import Mathlib

/-!
Shallow embedding of `src/museum_lang_api.py` (MuseumLangAPI): a FastAPI
service that loads a pickled language-identification pipeline at startup and
exposes one inference endpoint `POST /identify-language` plus a health check.

Modelling conventions:
* Python floats are modelled as `Rat` (the probabilities and confidences the
  handler manipulates are plain numeric values; no float rounding is relevant
  to the claims).
* The loaded pipeline (`loaded_pipeline`) is a `Model`: its `classes_`
  attribute, an optional `predict_proba` capability (the `hasattr` check) and
  a `predict` capability.  Each capability either returns a value or raises,
  modelled with `Except String`.
* A raised `HTTPException` and a returned response are the two constructors of
  `HandlerResult`.
* Each call's log lines and Model Gateway invocations are returned explicitly
  in `HandlerOutput`.
-/

set_option maxHeartbeats 1000000

namespace MuseumLang

/-- Severity levels of the `logging` calls the source makes. -/
inductive LogLevel
  | info
  | warning
  | error
  deriving DecidableEq, Repr

/-- One line appended to the audit log. -/
structure LogEntry where
  level : LogLevel
  msg : String
  deriving DecidableEq, Repr

/-- An invocation of one of the two Model Gateway capabilities, with the batch
it was given. -/
inductive GatewayCall
  | proba (batch : List String)
  | plain (batch : List String)
  deriving DecidableEq, Repr

/-- Pydantic response model `LanguageResponse`. -/
structure LanguageResponse where
  language_code : String
  confidence : Rat
  deriving DecidableEq, Repr

/-- What one call of the endpoint hands back to the HTTP layer: a response
body, or an `HTTPException` with its status code and detail string. -/
inductive HandlerResult
  | ok (resp : LanguageResponse)
  | httpError (status : Nat) (detail : String)
  deriving DecidableEq, Repr

/-- The full observable behaviour of one endpoint call. -/
structure HandlerOutput where
  result : HandlerResult
  logs : List LogEntry
  calls : List GatewayCall
  deriving DecidableEq, Repr

/-- The loaded classifier (`loaded_pipeline`): its trained class labels
(`classes_`), the optional probability capability (`predict_proba`, present
exactly when `hasattr(loaded_pipeline, "predict_proba")`) and the plain
classification capability (`predict`).  Both capabilities take a batch of
texts; `.error` models the capability raising. -/
structure Model where
  classes : List String
  predict_proba : Option (List String → Except String (List (List Rat)))
  predict : List String → Except String (List String)

/-- Model of Python `str.strip()`: drop leading and trailing whitespace
characters (the exact unicode whitespace set of Python is approximated by
`Char.isWhitespace`, which covers the characters relevant here). -/
def pyStrip (s : String) : String :=
  ⟨((s.data.dropWhile Char.isWhitespace).reverse.dropWhile Char.isWhitespace).reverse⟩

/-- Model of `int(np.argmax(probabilities))` on a 1-D array: raises on an
empty array, otherwise returns the index of the first occurrence of the
maximum value. -/
def npArgmax (l : List Rat) : Except String Nat :=
  match l.max? with
  | none => .error "attempt to get argmax of an empty sequence"
  | some m => .ok (l.findIdx (fun x => x == m))

/-- Python repr of a string as interpolated by `{request.text!r}` in the
warning log line (quote-escaping inside the text is not modelled). -/
def pyRepr (s : String) : String := "\x27" ++ s ++ "\x27"

/-- The `response.json()` serialization interpolated into the INFO log line. -/
def respJson (r : LanguageResponse) : String :=
  "\x7b\"language_code\": \"" ++ r.language_code ++ "\", \"confidence\": "
    ++ toString r.confidence ++ "\x7d"

/-- Detail of the 400 response for empty text. -/
def emptyTextDetail : String := "Il testo non può essere vuoto."

/-- Detail of the 500 response: a generic fixed message, independent of the
exception that was raised. -/
def internalErrorDetail : String := "Errore interno nel riconoscimento della lingua."

/-- The WARNING log line for empty input, carrying the original raw text. -/
def badRequestLog (raw : String) : String :=
  "[BadRequest] Testo vuoto ricevuto: " ++ pyRepr raw

/-- The INFO log line for a successful classification. -/
def predictLog (text : String) (r : LanguageResponse) : String :=
  "[Predict] \x27" ++ text ++ "\x27 -> " ++ respJson r

/-- The ERROR log line for a failed prediction, carrying the exception detail. -/
def predictionErrorLog (e : String) : String :=
  "[Error] Durante la predizione: " ++ e

/-- The body of the `try:` block of `identify_language` (steps 3 and 4 of the
source): dispatch on the `predict_proba` capability, build the response.
Returns the outcome of the block together with the gateway calls made, so a
raised exception still records the capability invocation that raised it.
Indexing (`[0]`, `classes[idx]`, `probabilities[idx]`) raises `IndexError`
when out of range, which the enclosing `except` catches like any other
exception. -/
def classifyStep (m : Model) (text : String) :
    Except String LanguageResponse × List GatewayCall :=
  match m.predict_proba with
  | some pp =>
    (match pp [text] with
     | .error e => .error e
     | .ok batchProbs =>
       match batchProbs.head? with
       | none => .error "IndexError: list index out of range"
       | some probabilities =>
         match npArgmax probabilities with
         | .error e => .error e
         | .ok idx =>
           match m.classes[idx]? with
           | none => .error "IndexError: index out of range"
           | some language_code =>
             match probabilities[idx]? with
             | none => .error "IndexError: list index out of range"
             | some confidence => .ok ⟨language_code, confidence⟩,
     [GatewayCall.proba [text]])
  | none =>
    (match m.predict [text] with
     | .error e => .error e
     | .ok labels =>
       match labels.head? with
       | none => .error "IndexError: list index out of range"
       | some language_code => .ok ⟨language_code, (1 : Rat)⟩,
     [GatewayCall.plain [text]])

/-- The endpoint `identify_language`: trim, reject empty text with 400 and a
WARNING log, otherwise run `classifyStep`; on success return the response and
log at INFO, on any exception log at ERROR and return 500 with a generic
detail. -/
def identify_language (m : Model) (rawText : String) : HandlerOutput :=
  let text := pyStrip rawText
  if text = "" then
    { result := .httpError 400 emptyTextDetail,
      logs := [⟨.warning, badRequestLog rawText⟩],
      calls := [] }
  else
    match classifyStep m text with
    | (.ok resp, calls) =>
      { result := .ok resp,
        logs := [⟨.info, predictLog text resp⟩],
        calls := calls }
    | (.error e, calls) =>
      { result := .httpError 500 internalErrorDetail,
        logs := [⟨.error, predictionErrorLog e⟩],
        calls := calls }

/-- Outcome of the module-level startup block: either the process starts with
the loaded model, or the `RuntimeError` re-raise aborts it. -/
inductive StartupOutcome
  | started (m : Model) (logs : List LogEntry)
  | refused (logs : List LogEntry)

/-- The startup `try/except` around `pickle.load`: `artifact` is the result of
deserializing `language_detection_pipeline.pkl` (`.error` models any failure
to open or unpickle).  On failure the error is logged at ERROR level and a
fatal `RuntimeError` is raised; on success the loaded model is kept. -/
def startup (artifact : Except String Model) : StartupOutcome :=
  match artifact with
  | .ok m =>
    .started m [⟨.info, "[Init] Modello di rilevamento lingua caricato con successo."⟩]
  | .error e =>
    .refused [⟨.error, "[Init] Errore caricamento modello: " ++ e⟩]

/-- A whole process run: when startup refuses, no request is ever served
(`none`); when it succeeds, every request is handled by `identify_language`
against the one loaded model. -/
def serve (artifact : Except String Model) (reqs : List String) :
    Option (List HandlerResult) :=
  match startup artifact with
  | .refused _ => none
  | .started m _ => some (reqs.map (fun t => (identify_language m t).result))

/-- Process-wide state between requests: the loaded model (read-only) and the
append-only log file. -/
structure ServerState where
  model : Model
  logFile : List LogEntry

/-- Serve one request against the current state: the handler runs on the
state's model, its log lines are appended to the log file, and the model is
unchanged. -/
def serveRequest (s : ServerState) (rawText : String) : ServerState × HandlerResult :=
  let o := identify_language s.model rawText
  (⟨s.model, s.logFile ++ o.logs⟩, o.result)

/-- The probability capability behaves as a probability estimator: every
entry of every distribution it returns lies in [0,1]. -/
def ProbaValid (m : Model) : Prop :=
  ∀ pp, m.predict_proba = some pp →
    ∀ batch out, pp batch = .ok out →
      ∀ dist ∈ out, ∀ p ∈ dist, 0 ≤ p ∧ p ≤ 1

/-- The plain classification capability only produces trained class labels. -/
def PredictValid (m : Model) : Prop :=
  ∀ batch out, m.predict batch = .ok out → ∀ lbl ∈ out, lbl ∈ m.classes

/-- A concrete probabilistic model used to instantiate theorems: two classes,
`predict_proba` assigns 3/10 to `en` and 7/10 to `it` for every text. -/
def demoModel : Model :=
  { classes := ["en", "it"],
    predict_proba := some (fun batch => .ok (batch.map (fun _ => [mkRat 3 10, mkRat 7 10]))),
    predict := fun batch => .ok (batch.map (fun _ => "it")) }

/-- A concrete model with no probability capability. -/
def plainModel : Model :=
  { classes := ["en", "it"],
    predict_proba := none,
    predict := fun batch => .ok (batch.map (fun _ => "it")) }

/-- A concrete model whose probability capability always raises. -/
def failingModel : Model :=
  { classes := ["en", "it"],
    predict_proba := some (fun _ => .error "boom"),
    predict := fun _ => .ok ["en"] }

/-- A concrete model where both classes tie at probability 1/2. -/
def tieModel : Model :=
  { classes := ["en", "it"],
    predict_proba := some (fun batch => .ok (batch.map (fun _ => [mkRat 1 2, mkRat 1 2]))),
    predict := fun batch => .ok (batch.map (fun _ => "en")) }

/-! ## Helper lemmas -/

/-- `npArgmax` returns an index of the list holding a maximal value, and it is
the first such index: every earlier entry is strictly smaller. -/
theorem npArgmax_spec (l : List Rat) (idx : Nat) (h : npArgmax l = .ok idx) :
    ∃ p, l[idx]? = some p ∧ (∀ q ∈ l, q ≤ p) ∧
      ∀ j, j < idx → ∀ q, l[j]? = some q → q < p := by
  unfold npArgmax at h
  cases hm : l.max? with
  | none => rw [hm] at h; simp at h
  | some m =>
    rw [hm] at h
    simp only [Except.ok.injEq] at h
    subst h
    have hmem : m ∈ l := List.max?_mem (fun a b => max_choice a b) hm
    have hle : ∀ b ∈ l, b ≤ m :=
      (List.max?_le_iff (fun a b c => max_le_iff) hm).mp (le_refl m)
    have hlt : l.findIdx (fun x => x == m) < l.length :=
      List.findIdx_lt_length_of_exists ⟨m, hmem, by simp⟩
    refine ⟨m, ?_, hle, ?_⟩
    · have := List.findIdx_getElem (w := hlt)
      rw [List.getElem?_eq_getElem hlt]
      simpa using this
    · intro j hj q hq
      have hjlen : j < l.length := Nat.lt_trans hj hlt
      have hne := List.not_of_lt_findIdx hj
      rw [List.getElem?_eq_getElem hjlen] at hq
      have hnem : l[j] ≠ m := by simpa using hne
      have hqm : q ≠ m := by cases hq; exact hnem
      exact lt_of_le_of_ne (hle q (by cases hq; exact List.getElem_mem hjlen)) hqm

/-- Inversion: a successful handler result comes from a non-empty trimmed text
and a successful `classifyStep` on it. -/
theorem identify_ok_inv (m : Model) (raw : String) (resp : LanguageResponse)
    (h : (identify_language m raw).result = .ok resp) :
    pyStrip raw ≠ "" ∧ (classifyStep m (pyStrip raw)).1 = .ok resp := by
  by_cases he : pyStrip raw = ""
  · simp [identify_language, he] at h
  · refine ⟨he, ?_⟩
    rcases hcs : classifyStep m (pyStrip raw) with ⟨exc, calls⟩
    cases exc with
    | error e => simp [identify_language, he, hcs] at h
    | ok r =>
      simp [identify_language, he, hcs] at h
      simp [h]

/-- With no probability capability, every successful `classifyStep` outcome
carries confidence exactly 1. -/
theorem classifyStep_none_confidence (m : Model) (text : String)
    (hpp : m.predict_proba = none) (r : LanguageResponse)
    (h : (classifyStep m text).1 = .ok r) : r.confidence = 1 := by
  unfold classifyStep at h
  rw [hpp] at h
  cases hpred : m.predict [text] with
  | error e => rw [hpred] at h; simp at h
  | ok labels =>
    rw [hpred] at h
    cases labels with
    | nil => simp at h
    | cons a as =>
      simp only [List.head?_cons, Except.ok.injEq] at h
      rw [← h]

/-! ## Claims -/

/-- C1: for every request whose text trims to the empty string (including
whitespace-only strings), the handler fails with HTTP 400, logs the original
untrimmed raw text at WARNING level, and never invokes the Model Gateway
(neither capability is called). -/
theorem c1_empty_input_rejected (m : Model) (raw : String) (h : pyStrip raw = "") :
    identify_language m raw =
      { result := .httpError 400 emptyTextDetail,
        logs := [⟨.warning, badRequestLog raw⟩],
        calls := [] } := by
  simp [identify_language, h]

/-- Witness for C1 at the whitespace-only input `"   "`. -/
theorem c1_empty_input_rejected_witness :
    identify_language demoModel "   " =
      { result := .httpError 400 emptyTextDetail,
        logs := [⟨.warning, badRequestLog "   "⟩],
        calls := [] } :=
  c1_empty_input_rejected demoModel "   " (by decide)

/-- C2: for every non-empty trimmed input, when the model exposes the
probability capability, the handler invokes it with the single-element batch
`[trimmed]`, and returns the class at the argmax index as `language_code`
with its probability as `confidence`, that probability being maximal in the
returned distribution. -/
theorem c2_proba_branch (m : Model) (raw : String)
    (pp : List String → Except String (List (List Rat)))
    (probs : List Rat) (rest : List (List Rat)) (idx : Nat) (c : String) (conf : Rat)
    (hne : pyStrip raw ≠ "")
    (hpp : m.predict_proba = some pp)
    (hcall : pp [pyStrip raw] = .ok (probs :: rest))
    (hidx : npArgmax probs = .ok idx)
    (hc : m.classes[idx]? = some c)
    (hconf : probs[idx]? = some conf) :
    (identify_language m raw).result = .ok ⟨c, conf⟩ ∧
    (identify_language m raw).calls = [.proba [pyStrip raw]] ∧
    ∀ q ∈ probs, q ≤ conf := by
  have hcs : classifyStep m (pyStrip raw) =
      (.ok ⟨c, conf⟩, [.proba [pyStrip raw]]) := by
    simp [classifyStep, hpp, hcall, hidx, hc, hconf]
  refine ⟨?_, ?_, ?_⟩
  · simp [identify_language, hne, hcs]
  · simp [identify_language, hne, hcs]
  · obtain ⟨p, hp, hmax, _⟩ := npArgmax_spec probs idx hidx
    rw [hconf] at hp
    cases hp
    exact hmax

/-- Witness for C2: `demoModel` assigns 3/10 to `en` and 7/10 to `it`, so
`"ciao"` is classified `it` with confidence 7/10 through the probability
capability. -/
theorem c2_proba_branch_witness :
    (identify_language demoModel "ciao").result = .ok ⟨"it", mkRat 7 10⟩ ∧
    (identify_language demoModel "ciao").calls = [.proba [pyStrip "ciao"]] := by
  have h := c2_proba_branch demoModel "ciao"
    (fun batch => .ok (batch.map (fun _ => [mkRat 3 10, mkRat 7 10])))
    [mkRat 3 10, mkRat 7 10] [] 1 "it" (mkRat 7 10)
    (by decide) rfl rfl (by rfl) (by rfl) (by decide)
  exact ⟨h.1, h.2.1⟩

/-- C3: when the model exposes no probability capability, the handler uses
the plain `predict` capability on the single-element batch and returns its
label with confidence exactly 1; moreover every successful result in this
mode has confidence exactly 1. -/
theorem c3_plain_branch (m : Model) (raw : String)
    (hpp : m.predict_proba = none) :
    (∀ label rest, pyStrip raw ≠ "" → m.predict [pyStrip raw] = .ok (label :: rest) →
      (identify_language m raw).result = .ok ⟨label, 1⟩ ∧
      (identify_language m raw).calls = [.plain [pyStrip raw]]) ∧
    (∀ resp, (identify_language m raw).result = .ok resp → resp.confidence = 1) := by
  constructor
  · intro label rest hne hcall
    have hcs : classifyStep m (pyStrip raw) =
        (.ok ⟨label, 1⟩, [.plain [pyStrip raw]]) := by
      simp [classifyStep, hpp, hcall]
    constructor
    · simp [identify_language, hne, hcs]
    · simp [identify_language, hne, hcs]
  · intro resp h
    exact classifyStep_none_confidence m (pyStrip raw) hpp resp (identify_ok_inv m raw resp h).2

/-- Witness for C3 at `plainModel` and input `"ciao"`. -/
theorem c3_plain_branch_witness :
    (identify_language plainModel "ciao").result = .ok ⟨"it", 1⟩ ∧
    (identify_language plainModel "ciao").calls = [.plain [pyStrip "ciao"]] :=
  (c3_plain_branch plainModel "ciao" rfl).1 "it" [] (by decide) rfl

/-- Inversion of a successful `classifyStep`: either the probability branch
ran to completion, or the plain branch did (with confidence pinned to 1). -/
theorem classifyStep_ok_inv (m : Model) (text : String) (r : LanguageResponse)
    (h : (classifyStep m text).1 = .ok r) :
    (∃ pp probs rest idx, m.predict_proba = some pp ∧
      pp [text] = .ok (probs :: rest) ∧ npArgmax probs = .ok idx ∧
      m.classes[idx]? = some r.language_code ∧ probs[idx]? = some r.confidence) ∨
    (∃ rest, m.predict_proba = none ∧
      m.predict [text] = .ok (r.language_code :: rest) ∧ r.confidence = 1) := by
  cases hpp : m.predict_proba with
  | some pp =>
    simp only [classifyStep, hpp] at h
    cases hcall : pp [text] with
    | error e => simp only [hcall] at h; exact absurd h (by simp)
    | ok out =>
      simp only [hcall] at h
      cases out with
      | nil => simp at h
      | cons probs rest =>
        simp only [List.head?_cons] at h
        cases hidx : npArgmax probs with
        | error e => simp only [hidx] at h; exact absurd h (by simp)
        | ok idx =>
          simp only [hidx] at h
          cases hc : m.classes[idx]? with
          | none => simp only [hc] at h; exact absurd h (by simp)
          | some c =>
            simp only [hc] at h
            cases hconf : probs[idx]? with
            | none => simp only [hconf] at h; exact absurd h (by simp)
            | some conf =>
              simp only [hconf, Except.ok.injEq] at h
              subst h
              exact Or.inl ⟨pp, probs, rest, idx, rfl, hcall, hidx, hc, hconf⟩
  | none =>
    simp only [classifyStep, hpp] at h
    cases hcall : m.predict [text] with
    | error e => simp only [hcall] at h; exact absurd h (by simp)
    | ok labels =>
      simp only [hcall] at h
      cases labels with
      | nil => simp at h
      | cons a rest =>
        simp only [List.head?_cons, Except.ok.injEq] at h
        subst h
        exact Or.inr ⟨rest, rfl, rfl, rfl⟩

/-- C4: for every non-empty trimmed input on which classification succeeds
against a model whose capabilities behave as trained probability estimators
and classifiers, the result's confidence lies in [0,1] and its language code
is one of the model's trained class labels. -/
theorem c4_postcondition (m : Model) (raw : String) (resp : LanguageResponse)
    (hp : ProbaValid m) (hq : PredictValid m)
    (h : (identify_language m raw).result = .ok resp) :
    0 ≤ resp.confidence ∧ resp.confidence ≤ 1 ∧ resp.language_code ∈ m.classes := by
  obtain ⟨hne, hcs⟩ := identify_ok_inv m raw resp h
  rcases classifyStep_ok_inv m (pyStrip raw) resp hcs with
    ⟨pp, probs, rest, idx, hpp, hcall, hidx, hc, hconf⟩ | ⟨rest, hpp, hcall, hconf⟩
  · have hpv := hp pp hpp [pyStrip raw] (probs :: rest) hcall probs
      (List.mem_cons_self _ _)
    have hb := hpv resp.confidence (List.getElem?_mem hconf)
    exact ⟨hb.1, hb.2, List.getElem?_mem hc⟩
  · refine ⟨by rw [hconf]; norm_num, by rw [hconf], ?_⟩
    exact hq [pyStrip raw] (resp.language_code :: rest) hcall resp.language_code
      (List.mem_cons_self _ _)

/-- Witness for C4 at `demoModel` and input `"ciao"`. -/
theorem c4_postcondition_witness :
    0 ≤ (mkRat 7 10) ∧ (mkRat 7 10) ≤ 1 ∧ "it" ∈ demoModel.classes := by
  have hp : ProbaValid demoModel := by
    intro pp hpp batch out hout dist hdist p hmem
    rw [show demoModel.predict_proba =
        some (fun batch => .ok (batch.map (fun _ => [mkRat 3 10, mkRat 7 10])))
      from rfl] at hpp
    cases hpp
    simp only at hout
    cases hout
    obtain ⟨x, _, rfl⟩ := List.mem_map.mp hdist
    have hpv : p = mkRat 3 10 ∨ p = mkRat 7 10 := by simpa using hmem
    rcases hpv with rfl | rfl <;> exact ⟨by decide, by decide⟩
  have hq : PredictValid demoModel := by
    intro batch out hout lbl hmem
    simp only [demoModel] at hout
    cases hout
    obtain ⟨x, _, rfl⟩ := List.mem_map.mp hmem
    decide
  exact c4_postcondition demoModel "ciao" ⟨"it", mkRat 7 10⟩ hp hq (by
    have : (identify_language demoModel "ciao").result
        = .ok ⟨"it", mkRat 7 10⟩ := by rfl
    exact this)

/-- C5: for every non-empty trimmed input, if the model invocation raises any
exception, the handler produces HTTP 500 (never 400) whose body is the fixed
generic message — the exception detail is not leaked — and the only log line
of the call is an ERROR line carrying the detail. -/
theorem c5_inference_failure (m : Model) (raw : String) (e : String)
    (cs : List GatewayCall)
    (hne : pyStrip raw ≠ "")
    (hfail : classifyStep m (pyStrip raw) = (.error e, cs)) :
    (identify_language m raw).result = .httpError 500 internalErrorDetail ∧
    (identify_language m raw).logs = [⟨.error, predictionErrorLog e⟩] := by
  constructor <;> simp [identify_language, hne, hfail]

/-- Witness for C5 at `failingModel`, whose probability capability raises. -/
theorem c5_inference_failure_witness :
    (identify_language failingModel "ciao").result = .httpError 500 internalErrorDetail ∧
    (identify_language failingModel "ciao").logs = [⟨.error, predictionErrorLog "boom"⟩] :=
  c5_inference_failure failingModel "ciao" "boom" [.proba [pyStrip "ciao"]]
    (by decide) rfl

/-- C6: every call produces exactly one audit log line, and its level matches
the outcome: WARNING exactly for empty-after-trim input, INFO exactly for a
successful classification, ERROR exactly for an inference failure (so a
failed call produces zero INFO lines, and no call produces two entries). -/
theorem c6_one_log_line (m : Model) (raw : String) :
    ∃ entry, (identify_language m raw).logs = [entry] ∧
      (entry.level = .warning ↔ pyStrip raw = "") ∧
      (entry.level = .info ↔ ∃ resp, (identify_language m raw).result = .ok resp) ∧
      (entry.level = .error ↔ ∃ d, (identify_language m raw).result = .httpError 500 d) := by
  by_cases he : pyStrip raw = ""
  · refine ⟨⟨.warning, badRequestLog raw⟩, ?_, ?_, ?_, ?_⟩ <;>
      simp [identify_language, he]
  · rcases hcs : classifyStep m (pyStrip raw) with ⟨exc, calls⟩
    cases exc with
    | ok r =>
      refine ⟨⟨.info, predictLog (pyStrip raw) r⟩, ?_, ?_, ?_, ?_⟩ <;>
        simp [identify_language, he, hcs]
    | error e =>
      refine ⟨⟨.error, predictionErrorLog e⟩, ?_, ?_, ?_, ?_⟩ <;>
        simp [identify_language, he, hcs]

/-- C7: serving the same text twice in a row against the same server state
(the model is read-only; only the log file grows) yields the same result,
hence identical `language_code` and `confidence`. -/
theorem c7_idempotent (s : ServerState) (raw : String) :
    (serveRequest (serveRequest s raw).1 raw).2 = (serveRequest s raw).2 := rfl

/-- C8: if deserializing the artifact fails, startup logs the error at ERROR
level and refuses, and no request is ever served; if it succeeds, every
subsequent request is handled against the loaded model. -/
theorem c8_fail_fast (artifact : Except String Model) :
    (∀ e, artifact = .error e →
      startup artifact =
        .refused [⟨.error, "[Init] Errore caricamento modello: " ++ e⟩] ∧
      ∀ reqs, serve artifact reqs = none) ∧
    (∀ m, artifact = .ok m →
      startup artifact =
        .started m [⟨.info, "[Init] Modello di rilevamento lingua caricato con successo."⟩] ∧
      ∀ reqs, serve artifact reqs =
        some (reqs.map (fun t => (identify_language m t).result))) := by
  constructor
  · rintro e rfl
    exact ⟨rfl, fun reqs => rfl⟩
  · rintro m rfl
    exact ⟨rfl, fun reqs => rfl⟩

/-- C9: when several classes tie at the maximum probability, the handler
selects the class at the smallest index: every index before the chosen one
holds a strictly smaller probability, and the chosen probability is maximal. -/
theorem c9_first_maximum (m : Model) (raw : String)
    (pp : List String → Except String (List (List Rat)))
    (probs : List Rat) (rest : List (List Rat)) (idx : Nat) (c : String) (conf : Rat)
    (hne : pyStrip raw ≠ "")
    (hpp : m.predict_proba = some pp)
    (hcall : pp [pyStrip raw] = .ok (probs :: rest))
    (hidx : npArgmax probs = .ok idx)
    (hc : m.classes[idx]? = some c)
    (hconf : probs[idx]? = some conf) :
    (identify_language m raw).result = .ok ⟨c, conf⟩ ∧
    (∀ j, j < idx → ∀ q, probs[j]? = some q → q < conf) ∧
    (∀ q ∈ probs, q ≤ conf) := by
  have hcs : classifyStep m (pyStrip raw) =
      (.ok ⟨c, conf⟩, [.proba [pyStrip raw]]) := by
    simp [classifyStep, hpp, hcall, hidx, hc, hconf]
  obtain ⟨p, hp, hmax, hfirst⟩ := npArgmax_spec probs idx hidx
  rw [hconf] at hp
  cases hp
  exact ⟨by simp [identify_language, hne, hcs], hfirst, hmax⟩

/-- Witness for C9: in `tieModel` both classes have probability 1/2 and the
first class label `en` (index 0) is selected. -/
theorem c9_first_maximum_witness :
    (identify_language tieModel "ciao").result = .ok ⟨"en", mkRat 1 2⟩ :=
  (c9_first_maximum tieModel "ciao"
    (fun batch => .ok (batch.map (fun _ => [mkRat 1 2, mkRat 1 2])))
    [mkRat 1 2, mkRat 1 2] [] 0 "en" (mkRat 1 2)
    (by decide) rfl rfl (by rfl) (by rfl) (by rfl)).1

/-- C10: every call has exactly one of three outcomes — a success, HTTP 400
with the empty-text detail, or HTTP 500 with the generic internal detail —
and the 400 outcome occurs exactly when the trimmed text is empty (so an
empty input can never yield 500, and a non-empty input can never yield 400). -/
theorem c10_outcome_trichotomy (m : Model) (raw : String) :
    ((∃ resp, (identify_language m raw).result = .ok resp) ∨
      (identify_language m raw).result = .httpError 400 emptyTextDetail ∨
      (identify_language m raw).result = .httpError 500 internalErrorDetail) ∧
    ((∃ d, (identify_language m raw).result = .httpError 400 d) ↔ pyStrip raw = "") := by
  by_cases he : pyStrip raw = ""
  · constructor
    · right; left
      simp [identify_language, he]
    · simp [identify_language, he]
  · rcases hcs : classifyStep m (pyStrip raw) with ⟨exc, calls⟩
    cases exc with
    | ok r =>
      constructor
      · left
        exact ⟨r, by simp [identify_language, he, hcs]⟩
      · simp [identify_language, he, hcs]
    | error e =>
      constructor
      · right; right
        simp [identify_language, he, hcs]
      · simp [identify_language, he, hcs]

end MuseumLang
